import Mathlib

/-!
Shallow embedding of the `partial_config` crate's layering/merge engine.

The derive macro in `derive/src/lib.rs` (`impl_partial`) generates, for a
target struct, a shadow struct with every field wrapped in `Option`, plus
`build` and `override_with`.  The repository's own integration-test target
(`tests/config.rs`, `struct Configuration`) is used as the representative
instantiation of that generated code.  Note the macro's `is_option` check is
purely syntactic (`derive/src/lib.rs:295`), so the field `height : Height`
(a type alias for `Option<u64>`) counts as a *required* field; the test
`incomplete_config_fails_to_build` confirms this (3 missing fields).

Rust types are mapped as: `&'static str`/`String` -> `String`,
`u64`/`usize` -> `Nat`, `Option<u64>` -> `Option Nat`, the unit struct
`Str1OnlySource` -> a one-constructor structure.  Rust `to_partial` is
rendered as `toPartial`; logging side effects (`println!`/`tracing`) are
observability only and are not modelled.
-/

/-- Rust `Str1OnlySource` from `tests/config.rs`: a unit struct, used as the
type of the `custom_struct` field of `Configuration`. -/
structure Str1OnlySource where
deriving DecidableEq, Repr

instance : Inhabited Str1OnlySource := ⟨{}⟩

/-- Rust `type Height = Option<u64>` from `tests/config.rs`. -/
abbrev Height : Type := Option Nat

/-- Rust `MissingField<'a>(pub &'a str)` from `src/error.rs`. -/
structure MissingField where
  name : String
deriving DecidableEq, Repr

/-- Rust `enum Error` from `src/error.rs`.  The feature-gated variants
(`FileReadError`, `EyreReport`) and the variants carrying foreign payloads
(`ParseIntError`, `ParseFieldError`'s boxed cause) are outside the claims;
`ParseFieldError` keeps its two static-string components. -/
inductive Error where
  | MissingFields (required_fields : List MissingField)
  | InconsistentSetting (first_source first_setting second_source second_setting : String)
  | ParseFieldError (field_name field_type : String)
deriving DecidableEq, Repr

/-- The target struct `Configuration` from `tests/config.rs`, fields in
declaration order: `str1`, `port`, `height`, `custom_struct`,
`optional_field`. -/
structure Configuration where
  str1 : String
  port : Nat
  height : Height
  custom_struct : Str1OnlySource
  optional_field : Option Nat
deriving DecidableEq, Repr

/-- The derive-generated shadow struct (`CustomPartialConfiguration` in
`tests/config.rs` via `partial_rename`).  The macro emits the optional
fields first, then the required fields with their types wrapped into
`Option` (`derive/src/lib.rs:96` and `:72`); only `optional_field` is
syntactically an `Option`, so it is the lone optional field. -/
structure PartialConfiguration where
  optional_field : Option Nat
  str1 : Option String
  port : Option Nat
  height : Option Height
  custom_struct : Option Str1OnlySource
deriving DecidableEq, Repr

/-- The generated `Default` derive: every field is `None`. -/
instance : Inhabited PartialConfiguration := ⟨⟨none, none, none, none, none⟩⟩

/-- Generated `Partial::build` (`derive/src/lib.rs:266`): visit each required
field in declaration order, unwrapping it or pushing its name onto
`missing_fields` and substituting `Default::default()`; pass optional fields
through; fail with `MissingFields` iff the accumulator is non-empty. -/
def PartialConfiguration.build (self : PartialConfiguration) :
    Except Error Configuration :=
  let missing_fields : List MissingField := []
  let (str1, missing_fields) :=
    match self.str1 with
    | some value => (value, missing_fields)
    | none => ("", missing_fields ++ [MissingField.mk "str1"])
  let (port, missing_fields) :=
    match self.port with
    | some value => (value, missing_fields)
    | none => (0, missing_fields ++ [MissingField.mk "port"])
  let (height, missing_fields) :=
    match self.height with
    | some value => (value, missing_fields)
    | none => ((none : Option Nat), missing_fields ++ [MissingField.mk "height"])
  let (custom_struct, missing_fields) :=
    match self.custom_struct with
    | some value => (value, missing_fields)
    | none => ({}, missing_fields ++ [MissingField.mk "custom_struct"])
  let optional_field := self.optional_field
  if missing_fields.isEmpty then
    .ok { str1, port, height, custom_struct, optional_field }
  else
    .error (.MissingFields missing_fields)

/-- Generated `Partial::override_with` (`derive/src/lib.rs:284`): for every
field, `let f = other.f.or(self.f)`. -/
def PartialConfiguration.override_with (self other : PartialConfiguration) :
    PartialConfiguration where
  optional_field := other.optional_field.or self.optional_field
  str1 := other.str1.or self.str1
  port := other.port.or self.port
  height := other.height.or self.height
  custom_struct := other.custom_struct.or self.custom_struct

/-- A `Source<Configuration>` capability (`src/lib.rs:143`): its one-shot
`to_partial` outcome (rendered `toPartial`) and its `name`. -/
structure SourceConf where
  toPartial : Except Error PartialConfiguration
  name : String

/-- Default-method `Partial::source` (`src/lib.rs:108`): log the source name
(not modelled), `let partial = value.to_partial()?`, then
`Ok(self.override_with(partial))`. -/
def PartialConfiguration.source (self : PartialConfiguration)
    (value : SourceConf) : Except Error PartialConfiguration :=
  match value.toPartial with
  | .error e => .error e
  | .ok p => .ok (self.override_with p)

/-- `impl Source<C> for Option<T>` (`src/lib.rs:156`):
`to_partial = map_or_else(|| Ok(default), |v| v.to_partial())` and
`name = map_or("Unspecified", |v| v.name())`. -/
def optionSource (s : Option SourceConf) : SourceConf where
  toPartial :=
    match s with
    | none => .ok (default : PartialConfiguration)
    | some v => v.toPartial
  name :=
    match s with
    | none => "Unspecified"
    | some v => v.name

/-- Result of one `std::env::var` lookup (`std::env::VarError` shape):
absent, present but not Unicode, or present with a string value. -/
inductive VarLookup where
  | notPresent
  | notUnicode
  | present (value : String)
deriving DecidableEq, Repr

/-- The `for candidate in candidates` loop of `env::extract`
(`src/lib.rs:206`-`242`) with its mutable `found : Option<(&str, String)>`
made explicit.  Warning-only branches (`NotUnicode`, redundant setting) do
not change `found`; an inconsistent second value returns the
`InconsistentSetting` error immediately. -/
def extractLoop (env : String → VarLookup) :
    Option (String × String) → List String →
    Except Error (Option (String × String))
  | found, [] => .ok found
  | found, candidate :: rest =>
    match found, env candidate with
    | _, .notPresent => extractLoop env found rest
    | _, .notUnicode => extractLoop env found rest
    | none, .present value => extractLoop env (some (candidate, value)) rest
    | some (previous_key, previous_string), .present value =>
      if previous_string = value then
        extractLoop env (some (previous_key, previous_string)) rest
      else
        .error (.InconsistentSetting
          ("Environment variable " ++ previous_key) previous_string
          ("Environment variable " ++ candidate) value)

/-- `env::extract` (`src/lib.rs:204`): run the loop from `found = None`,
then `Ok(found.map(|(_, value)| value))`.  The process environment is the
explicit oracle `env`. -/
def extract (env : String → VarLookup) (candidates : List String) :
    Except Error (Option String) :=
  (extractLoop env none candidates).map (fun found => found.map Prod.snd)

/-- Specification-side list of the absent required fields of a partial
value, in the declaration order of the required fields. -/
def missingRequired (self : PartialConfiguration) : List MissingField :=
  (if self.str1.isNone then [MissingField.mk "str1"] else []) ++
  (if self.port.isNone then [MissingField.mk "port"] else []) ++
  (if self.height.isNone then [MissingField.mk "height"] else []) ++
  (if self.custom_struct.isNone then [MissingField.mk "custom_struct"] else [])

/-- A "last layer that set the field wins" pick over a base value and three
layers, stated the way the spec words the chain-precedence guarantee. -/
def pickLast {α : Type} (base l1 l2 l3 : Option α) : Option α :=
  if l3.isSome then l3 else if l2.isSome then l2 else if l1.isSome then l1 else base

/- Shared helper lemmas. -/

theorem orPresentWins {α : Type} (a b : Option α) :
    a.or b = if a.isSome then a else b := by
  cases a <;> simp

theorem default_eq :
    (default : PartialConfiguration) = ⟨none, none, none, none, none⟩ := rfl

theorem override_none_right (a : PartialConfiguration) :
    a.override_with ⟨none, none, none, none, none⟩ = a := by
  cases a
  simp [PartialConfiguration.override_with]

theorem override_none_left (a : PartialConfiguration) :
    PartialConfiguration.override_with ⟨none, none, none, none, none⟩ a = a := by
  cases a
  simp [PartialConfiguration.override_with]

/-- Claim C1: merge precedence law — for every pair of partial values and
every field, the merged field equals `other`'s field when present and
`self`'s field otherwise; `override_with` is total (no error outcome by its
very type) and the merged field is present exactly when either operand's
field is, so a present field is never turned absent. -/
theorem override_with_precedence (a b : PartialConfiguration) :
    ((a.override_with b).str1 = if b.str1.isSome then b.str1 else a.str1) ∧
    ((a.override_with b).port = if b.port.isSome then b.port else a.port) ∧
    ((a.override_with b).height = if b.height.isSome then b.height else a.height) ∧
    ((a.override_with b).custom_struct =
      if b.custom_struct.isSome then b.custom_struct else a.custom_struct) ∧
    ((a.override_with b).optional_field =
      if b.optional_field.isSome then b.optional_field else a.optional_field) ∧
    ((a.override_with b).str1.isSome = (a.str1.isSome || b.str1.isSome)) ∧
    ((a.override_with b).port.isSome = (a.port.isSome || b.port.isSome)) ∧
    ((a.override_with b).height.isSome = (a.height.isSome || b.height.isSome)) ∧
    ((a.override_with b).custom_struct.isSome =
      (a.custom_struct.isSome || b.custom_struct.isSome)) ∧
    ((a.override_with b).optional_field.isSome =
      (a.optional_field.isSome || b.optional_field.isSome)) := by
  refine ⟨?_, ?_, ?_, ?_, ?_, ?_, ?_, ?_, ?_, ?_⟩ <;>
    first
      | (simp [PartialConfiguration.override_with, Option.isSome_or, Bool.or_comm]
         done)
      | simp [PartialConfiguration.override_with, orPresentWins]

/-- Claim C9: the fully-absent default partial value is a two-sided identity
for `override_with`. -/
theorem override_with_default_identity (a : PartialConfiguration) :
    a.override_with (default : PartialConfiguration) = a ∧
    (default : PartialConfiguration).override_with a = a := by
  rw [default_eq]
  exact ⟨override_none_right a, override_none_left a⟩

/-- Claim C10: `env::extract` on an empty candidate list returns `Ok(None)`
for every state of the environment oracle. -/
theorem extract_empty_candidates (env : String → VarLookup) :
    extract env [] = .ok none := rfl

/-- Claim C7: the `Option`-wrapped source is a no-op layer when absent —
`None.to_partial()` is the fully-absent default partial value, applying it
through `source` leaves the accumulated value unchanged, and its name is
"Unspecified"; `Some(inner)` behaves exactly as `inner`. -/
theorem option_source_noop (base : PartialConfiguration) (inner : SourceConf) :
    (optionSource none).toPartial =
      .ok (⟨none, none, none, none, none⟩ : PartialConfiguration) ∧
    (optionSource none).name = "Unspecified" ∧
    base.source (optionSource none) = .ok base ∧
    (optionSource (some inner)).toPartial = inner.toPartial ∧
    (optionSource (some inner)).name = inner.name := by
  refine ⟨rfl, rfl, ?_, rfl, rfl⟩
  show Except.ok (base.override_with ⟨none, none, none, none, none⟩) = .ok base
  rw [override_none_right]

/-- Claim C2: sequencer ordering — `self.source(value)` is
`Ok(self.override_with(p))` whenever `value.to_partial()` succeeds with `p`
(accumulated value as `self`, new layer as `other`), and in any chain
`base.source(A).source(B).source(C)` each field takes the value of the last
source in the chain that set it (precedence C > B > A > base). -/
theorem source_chain_precedence (base : PartialConfiguration)
    (sa sb sc : SourceConf) (pa pb pc : PartialConfiguration)
    (ha : sa.toPartial = .ok pa) (hb : sb.toPartial = .ok pb)
    (hc : sc.toPartial = .ok pc) :
    base.source sa = .ok (base.override_with pa) ∧
    ((base.source sa).bind (fun x => x.source sb)).bind (fun x => x.source sc) =
      .ok (((base.override_with pa).override_with pb).override_with pc) ∧
    (((base.override_with pa).override_with pb).override_with pc).str1 =
      pickLast base.str1 pa.str1 pb.str1 pc.str1 ∧
    (((base.override_with pa).override_with pb).override_with pc).port =
      pickLast base.port pa.port pb.port pc.port ∧
    (((base.override_with pa).override_with pb).override_with pc).height =
      pickLast base.height pa.height pb.height pc.height ∧
    (((base.override_with pa).override_with pb).override_with pc).custom_struct =
      pickLast base.custom_struct pa.custom_struct pb.custom_struct pc.custom_struct ∧
    (((base.override_with pa).override_with pb).override_with pc).optional_field =
      pickLast base.optional_field pa.optional_field pb.optional_field
        pc.optional_field := by
  refine ⟨?_, ?_, ?_, ?_, ?_, ?_, ?_⟩ <;>
    simp [PartialConfiguration.source, ha, hb, hc, Except.bind,
      PartialConfiguration.override_with, pickLast, orPresentWins]

def exBase : PartialConfiguration := ⟨some 1, some "base", none, none, none⟩
def exPa : PartialConfiguration := ⟨none, some "a", some 1, none, none⟩
def exPb : PartialConfiguration := ⟨some 2, none, some 2, none, none⟩
def exPc : PartialConfiguration := ⟨none, some "c", none, some (some 3), none⟩
def exSa : SourceConf := ⟨.ok exPa, "A"⟩
def exSb : SourceConf := ⟨.ok exPb, "B"⟩
def exSc : SourceConf := ⟨.ok exPc, "C"⟩

theorem source_chain_precedence_witness :
    exSa.toPartial = .ok exPa ∧ exSb.toPartial = .ok exPb ∧
    exSc.toPartial = .ok exPc ∧
    (exBase.source exSa = .ok (exBase.override_with exPa) ∧
     ((exBase.source exSa).bind (fun x => x.source exSb)).bind
        (fun x => x.source exSc) =
       .ok (((exBase.override_with exPa).override_with exPb).override_with exPc) ∧
     (((exBase.override_with exPa).override_with exPb).override_with exPc).str1 =
       pickLast exBase.str1 exPa.str1 exPb.str1 exPc.str1 ∧
     (((exBase.override_with exPa).override_with exPb).override_with exPc).port =
       pickLast exBase.port exPa.port exPb.port exPc.port ∧
     (((exBase.override_with exPa).override_with exPb).override_with exPc).height =
       pickLast exBase.height exPa.height exPb.height exPc.height ∧
     (((exBase.override_with exPa).override_with exPb).override_with
          exPc).custom_struct =
       pickLast exBase.custom_struct exPa.custom_struct exPb.custom_struct
         exPc.custom_struct ∧
     (((exBase.override_with exPa).override_with exPb).override_with
          exPc).optional_field =
       pickLast exBase.optional_field exPa.optional_field exPb.optional_field
         exPc.optional_field) :=
  ⟨rfl, rfl, rfl,
    source_chain_precedence exBase exSa exSb exSc exPa exPb exPc rfl rfl rfl⟩

/-- Claim C8: associativity-with-order — chaining `source` calls equals a
single `override_with` fold of the layers merged in the same order:
`base.source(A).source(B)` is `Ok(base.override_with(pA.override_with(pB)))`
whenever both `to_partial` calls succeed. -/
theorem source_chain_associativity (base : PartialConfiguration)
    (sa sb : SourceConf) (pa pb : PartialConfiguration)
    (ha : sa.toPartial = .ok pa) (hb : sb.toPartial = .ok pb) :
    (base.source sa).bind (fun x => x.source sb) =
      .ok (base.override_with (pa.override_with pb)) := by
  cases base; cases pa; cases pb
  simp [PartialConfiguration.source, ha, hb, Except.bind,
    PartialConfiguration.override_with, Option.or_assoc]

theorem source_chain_associativity_witness :
    exSa.toPartial = .ok exPa ∧ exSb.toPartial = .ok exPb ∧
    (exBase.source exSa).bind (fun x => x.source exSb) =
      .ok (exBase.override_with (exPa.override_with exPb)) :=
  ⟨rfl, rfl, source_chain_associativity exBase exSa exSb exPa exPb rfl rfl⟩

/-- Claim C3: aggregation completeness of `build` — whenever the set of
absent required fields is non-empty, `build` fails with a `MissingFields`
error listing exactly all absent required field identifiers in declaration
order; when no required field is absent, `build` returns `Ok` with the
assembled target (required fields unwrapped, optional fields passed
through). -/
theorem build_aggregates_missing (p : PartialConfiguration) :
    (missingRequired p ≠ [] →
      p.build = .error (.MissingFields (missingRequired p))) ∧
    (missingRequired p = [] →
      p.build = .ok ⟨p.str1.getD "", p.port.getD 0, p.height.getD none,
        p.custom_struct.getD {}, p.optional_field⟩) := by
  obtain ⟨o, s1, po, h, c⟩ := p
  cases s1 <;> cases po <;> cases h <;> cases c <;>
    simp [PartialConfiguration.build, missingRequired]

def exM : PartialConfiguration := ⟨none, some "x", none, some none, none⟩

theorem build_aggregates_missing_witness :
    missingRequired exM ≠ [] ∧
    exM.build = .error (.MissingFields (missingRequired exM)) :=
  ⟨by decide, (build_aggregates_missing exM).1 (by decide)⟩

/-- Claim C6: optional-field passthrough in `build` — the already-optional
target field is passed through unchanged (present stays `Some`, absent
stays `None`), it never appears in a `MissingFields` error, and making it
absent never changes whether `build` succeeds. -/
theorem build_optional_passthrough (p : PartialConfiguration) :
    (∀ t, p.build = .ok t → t.optional_field = p.optional_field) ∧
    (∀ l, p.build = .error (.MissingFields l) →
      MissingField.mk "optional_field" ∉ l) ∧
    ((PartialConfiguration.mk none p.str1 p.port p.height
        p.custom_struct).build.isOk = p.build.isOk) := by
  obtain ⟨o, s1, po, h, c⟩ := p
  cases s1 <;> cases po <;> cases h <;> cases c <;>
    simp [PartialConfiguration.build, Except.isOk, Except.toBool]

def exOpt : PartialConfiguration := ⟨none, some "x", some 1, some none, some {}⟩

theorem build_optional_passthrough_witness :
    (Configuration.mk "x" 1 none {} none).optional_field = exOpt.optional_field :=
  (build_optional_passthrough exOpt).1 (Configuration.mk "x" 1 none {} none) rfl

theorem extractLoop_append (env : String → VarLookup) (l1 l2 : List String)
    (found : Option (String × String)) :
    extractLoop env found (l1 ++ l2) =
      (extractLoop env found l1).bind (fun f => extractLoop env f l2) := by
  induction l1 generalizing found with
  | nil => simp [extractLoop, Except.bind]
  | cons c rest ih =>
    cases found with
    | none =>
      cases henv : env c <;> simp [extractLoop, henv, ih]
    | some kv =>
      obtain ⟨k, v⟩ := kv
      cases henv : env c with
      | notPresent => simp [extractLoop, henv, ih]
      | notUnicode => simp [extractLoop, henv, ih]
      | present w =>
        by_cases hw : v = w
        · simp [extractLoop, henv, hw, ih]
        · simp [extractLoop, henv, hw, Except.bind]

/-- Claim C4: alias inconsistency is an error — if, scanning the candidate
list in order, a candidate's variable holds a valid value `w` different
from the value `v` already recorded from an earlier candidate `k`,
`env::extract` returns an `InconsistentSetting` error carrying both origins
and both values, and it does so for every tail of remaining candidates,
i.e. it stops immediately without consulting them. -/
theorem extract_inconsistent_error (env : String → VarLookup)
    (pre rest : List String) (c k v w : String)
    (hpre : extractLoop env none pre = .ok (some (k, v)))
    (hc : env c = .present w) (hne : v ≠ w) :
    extract env (pre ++ c :: rest) =
      .error (.InconsistentSetting
        ("Environment variable " ++ k) v
        ("Environment variable " ++ c) w) := by
  unfold extract
  rw [extractLoop_append, hpre]
  simp [Except.bind, Except.map, extractLoop, hc, hne]

def exEnvBad : String → VarLookup := fun s =>
  if s = "A" then .present "5" else if s = "B" then .present "6" else .notPresent

theorem extract_inconsistent_error_witness :
    extractLoop exEnvBad none ["A"] = .ok (some ("A", "5")) ∧
    exEnvBad "B" = .present "6" ∧ "5" ≠ "6" ∧
    extract exEnvBad (["A"] ++ "B" :: []) =
      .error (.InconsistentSetting
        ("Environment variable " ++ "A") "5"
        ("Environment variable " ++ "B") "6") :=
  ⟨rfl, rfl, by decide,
    extract_inconsistent_error exEnvBad ["A"] [] "B" "A" "5" "6" rfl rfl
      (by decide)⟩

theorem extractLoop_stays (env : String → VarLookup) (k v : String)
    (cs : List String)
    (hcons : ∀ c ∈ cs, ∀ w, env c = .present w → w = v) :
    extractLoop env (some (k, v)) cs = .ok (some (k, v)) := by
  induction cs with
  | nil => rfl
  | cons c rest ih =>
    have ihr := ih (fun x hx w hw => hcons x (List.mem_cons_of_mem _ hx) w hw)
    cases henv : env c with
    | notPresent => simpa [extractLoop, henv] using ihr
    | notUnicode => simpa [extractLoop, henv] using ihr
    | present w =>
      have hw : w = v := hcons c (List.mem_cons_self _ _) w henv
      subst hw
      simpa [extractLoop, henv] using ihr

theorem extractLoop_no_present (env : String → VarLookup) (cs : List String)
    (found : Option (String × String))
    (hnone : ∀ c ∈ cs, ∀ w, env c ≠ .present w) :
    extractLoop env found cs = .ok found := by
  induction cs generalizing found with
  | nil => rfl
  | cons c rest ih =>
    cases henv : env c with
    | notPresent =>
      cases found with
      | none =>
        simpa [extractLoop, henv] using
          ih none (fun x hx w hw => hnone x (List.mem_cons_of_mem _ hx) w hw)
      | some kv =>
        obtain ⟨k, v⟩ := kv
        simpa [extractLoop, henv] using
          ih (some (k, v)) (fun x hx w hw => hnone x (List.mem_cons_of_mem _ hx) w hw)
    | notUnicode =>
      cases found with
      | none =>
        simpa [extractLoop, henv] using
          ih none (fun x hx w hw => hnone x (List.mem_cons_of_mem _ hx) w hw)
      | some kv =>
        obtain ⟨k, v⟩ := kv
        simpa [extractLoop, henv] using
          ih (some (k, v)) (fun x hx w hw => hnone x (List.mem_cons_of_mem _ hx) w hw)
    | present w => exact absurd henv (hnone c (List.mem_cons_self _ _) w)

theorem extractLoop_consistent (env : String → VarLookup) (cs : List String)
    (v : String)
    (hcons : ∀ c ∈ cs, ∀ w, env c = .present w → w = v)
    (hex : ∃ c ∈ cs, env c = .present v) :
    ∃ k, extractLoop env none cs = .ok (some (k, v)) := by
  induction cs with
  | nil => simp at hex
  | cons c rest ih =>
    cases henv : env c with
    | present w =>
      have hw : w = v := hcons c (List.mem_cons_self _ _) w henv
      subst hw
      refine ⟨c, ?_⟩
      have := extractLoop_stays env c w rest
        (fun x hx u hu => hcons x (List.mem_cons_of_mem _ hx) u hu)
      simpa [extractLoop, henv] using this
    | notPresent =>
      obtain ⟨x, hx, hpx⟩ := hex
      rcases List.mem_cons.mp hx with rfl | hx2
      · rw [henv] at hpx; exact absurd hpx (by simp)
      · have := ih (fun y hy u hu => hcons y (List.mem_cons_of_mem _ hy) u hu)
          ⟨x, hx2, hpx⟩
        simpa [extractLoop, henv] using this
    | notUnicode =>
      obtain ⟨x, hx, hpx⟩ := hex
      rcases List.mem_cons.mp hx with rfl | hx2
      · rw [henv] at hpx; exact absurd hpx (by simp)
      · have := ih (fun y hy u hu => hcons y (List.mem_cons_of_mem _ hy) u hu)
          ⟨x, hx2, hpx⟩
        simpa [extractLoop, henv] using this

/-- Claim C5: consistent alias resolution succeeds — if every candidate
whose variable is present with valid text holds the same string `v` and at
least one such candidate exists, `env::extract` returns `Ok(Some(v))`; if
no candidate yields a valid value it returns `Ok(None)`; and an absent or
present-but-non-Unicode variable causes no state change in the scan (it is
treated as absent and never fails the resolution). -/
theorem extract_consistent (env : String → VarLookup) (cs : List String)
    (v : String) :
    ((∀ c ∈ cs, ∀ w, env c = .present w → w = v) →
      (∃ c ∈ cs, env c = .present v) →
      extract env cs = .ok (some v)) ∧
    ((∀ c ∈ cs, ∀ w, env c ≠ .present w) → extract env cs = .ok none) ∧
    (∀ found c rest, env c = .notPresent ∨ env c = .notUnicode →
      extractLoop env found (c :: rest) = extractLoop env found rest) := by
  refine ⟨?_, ?_, ?_⟩
  · intro hcons hex
    obtain ⟨k, hk⟩ := extractLoop_consistent env cs v hcons hex
    unfold extract
    rw [hk]
    rfl
  · intro hnone
    unfold extract
    rw [extractLoop_no_present env cs none hnone]
    rfl
  · intro found c rest h
    cases found with
    | none => rcases h with h | h <;> simp [extractLoop, h]
    | some kv =>
      obtain ⟨k, w⟩ := kv
      rcases h with h | h <;> simp [extractLoop, h]

def exEnvGood : String → VarLookup := fun s =>
  if s = "A" then .present "5" else .notPresent

theorem extract_consistent_witness :
    extract exEnvGood ["A", "B"] = .ok (some "5") :=
  (extract_consistent exEnvGood ["A", "B"] "5").1
    (by
      intro c hc w hw
      rcases List.mem_cons.mp hc with rfl | hc2
      · simpa [exEnvGood] using hw.symm
      · rcases List.mem_cons.mp hc2 with rfl | hc3
        · simp [exEnvGood] at hw
        · simp at hc3)
    ⟨"A", List.mem_cons_self _ _, rfl⟩
